import Mathlib

/-
Verification development for cmd/chainmintcli/main.go (corectl CLI).

Embedding conventions:
- Go strings are modelled as lists of characters (GoStr); all strings that
  occur in the claims are ASCII, so byte indexing in Go coincides with
  character indexing here.
- Each Go function that performs I/O is modelled by a pure function that
  returns a description of its observable effects (lines written, exit code,
  request issued).
-/

/-- Go string, modelled as a list of characters. -/
abbrev GoStr := List Char

/-- Conversion from Lean string literals to the Go string model. -/
def gs (s : String) : GoStr := s.toList

/-- Model of strings.HasPrefix: first argument is the candidate leading
segment, second the string. -/
def strHasPre : GoStr → GoStr → Bool
  | [], _ => true
  | _ :: _, [] => false
  | p :: ps, s :: ss => p == s && strHasPre ps ss

/-- Index of the first occurrence of sep in s (sep given first), as an
option; underlies the model of strings.Index. -/
def strIndexAux (sep : GoStr) : GoStr → Option Nat
  | [] => if sep = [] then some 0 else none
  | c :: t => if strHasPre sep (c :: t) then some 0 else (strIndexAux sep t).map (· + 1)

/-- Model of strings.Index(s, sep): first byte index of sep in s, or -1. -/
def strIndex (s sep : GoStr) : Int :=
  match strIndexAux sep s with
  | some i => (i : Int)
  | none => -1

/-- Model of splitAfter2 from main.go:

    func splitAfter2(s, sep string) (a, b string) \x7b
        i := strings.Index(s, sep)
        k := i + len(sep)
        return s[:k], s[k:]
    \x7d

For the one-character separator used by the CLI, k is never negative, so
Int.toNat agrees with Go's slicing. Per the source comment, when sep does
not occur in s the result is a = "" and b = s. -/
def splitAfter2 (s sep : GoStr) : GoStr × GoStr :=
  let k : Nat := (strIndex s sep + (sep.length : Int)).toNat
  (s.take k, s.drop k)

/-- Model of strings.ToUpper (rune-wise upper-casing; ASCII here). -/
def toUpper (s : GoStr) : GoStr := s.map Char.toUpper

/-- Model of strings.ToLower. -/
def toLower (s : GoStr) : GoStr := s.map Char.toLower

/-- JSON values as constructed by editAuthz: the guard_data payloads are
string values and single-entry map[string]... objects, so a string
constructor and a one-field-object constructor suffice. -/
inductive JVal where
  | jstr (s : GoStr)
  | jobj1 (key : GoStr) (val : JVal)
deriving DecidableEq

/-- Model of grantReq from main.go: the JSON body of grant/revoke requests,
with fields policy, guard_type, guard_data (in struct declaration order). -/
structure GrantReq where
  policy : GoStr
  guardType : GoStr
  guardData : JVal
deriving DecidableEq

/-- Rendering of a JSON string value (the values used by the claims contain
no characters that json.Marshal would escape). -/
def jquote (s : GoStr) : GoStr := '"' :: s ++ ['"']

/-- Serialization of a JVal, matching json.Marshal on these shapes. -/
def JVal.render : JVal → GoStr
  | .jstr s => jquote s
  | .jobj1 k v => '\x7b' :: (jquote k ++ ':' :: JVal.render v) ++ ['\x7d']

/-- Serialization of a grantReq body, matching json.Marshal field order
(struct declaration order: policy, guard_type, guard_data). -/
def GrantReq.render (r : GrantReq) : GoStr :=
  '\x7b' :: (jquote (gs "policy") ++ ':' :: jquote r.policy
    ++ ',' :: jquote (gs "guard_type") ++ ':' :: jquote r.guardType
    ++ ',' :: jquote (gs "guard_data") ++ ':' :: JVal.render r.guardData) ++ ['\x7d']

/-- Whether flag.FlagSet.Parse treats an argument as a flag: it starts with
a minus sign and has length at least 2. -/
def isFlagArg : GoStr → Bool
  | '-' :: _ :: _ => true
  | _ => false

/-- Model of flags.Parse on a FlagSet with no registered flags, as called by
editAuthz: an empty argument list parses to itself; a leading "--" is
consumed and terminates parsing; any other leading flag-shaped argument is
an undefined flag, which makes Parse invoke flags.Usage (exit status 1),
modelled as none; a leading non-flag argument terminates parsing with all
arguments positional. -/
def flagParse : List GoStr → Option (List GoStr)
  | [] => some []
  | s :: rest =>
    if s = gs "--" then some rest
    else if isFlagArg s then none
    else some (s :: rest)

/-- Usage line built by editAuthz for the given action. -/
def usageOf (action : GoStr) : GoStr :=
  gs "usage: corectl " ++ action ++ gs " [policy] [guard]"

/-- Endpoint path chosen by editAuthz: a Go map lookup whose zero value is
the empty string for actions other than grant and revoke. -/
def pathOf (action : GoStr) : GoStr :=
  if action = gs "grant" then gs "/create-authorization-grant"
  else if action = gs "revoke" then gs "/delete-authorization-grant"
  else []

/-- Observable outcome of editAuthz. -/
inductive EditResult where
  /-- flags.Usage was invoked (usage text and guard help to stderr, exit 1). -/
  | flagUsageExit
  /-- pre lines are printed to stderr, then fatalln msg runs (log buffer
  flushed, msg printed, exit status 2). -/
  | fatal (pre : List GoStr) (msg : GoStr)
  /-- the grantReq body is posted to path via client.Call. -/
  | request (path : GoStr) (body : GrantReq)
deriving DecidableEq

/-- Exit status implied by an EditResult at the point it is produced (a
request that later fails still exits via dieOnRPCError, modelled
separately). -/
def EditResult.exitCode : EditResult → Option Nat
  | .flagUsageExit => some 1
  | .fatal _ _ => some 2
  | .request _ _ => none

/-- Model of editAuthz from main.go: parse flags, require exactly two
positional arguments (policy, guard), split the guard after the first "=",
upper-case the prefix and dispatch on TOKEN= / CN= / OU=, otherwise print
the unknown guard type and die with the usage text. -/
def editAuthz (action : GoStr) (args : List GoStr) : EditResult :=
  match flagParse args with
  | none => EditResult.flagUsageExit
  | some rest =>
    match rest with
    | [policy, guard] =>
      if toUpper (splitAfter2 guard (gs "=")).1 = gs "TOKEN=" then
        EditResult.request (pathOf action)
          ⟨policy, gs "access_token", JVal.jobj1 (gs "id") (JVal.jstr (splitAfter2 guard (gs "=")).2)⟩
      else if toUpper (splitAfter2 guard (gs "=")).1 = gs "CN=" then
        EditResult.request (pathOf action)
          ⟨policy, gs "x509", JVal.jobj1 (gs "subject") (JVal.jobj1 (gs "CN") (JVal.jstr (splitAfter2 guard (gs "=")).2))⟩
      else if toUpper (splitAfter2 guard (gs "=")).1 = gs "OU=" then
        EditResult.request (pathOf action)
          ⟨policy, gs "x509", JVal.jobj1 (gs "subject") (JVal.jobj1 (gs "OU") (JVal.jstr (splitAfter2 guard (gs "=")).2))⟩
      else
        EditResult.fatal [gs "unknown guard type " ++ (splitAfter2 guard (gs "=")).1] (usageOf action)
    | _ => EditResult.fatal [] (usageOf action)

/-- Model of the grant command body: editAuthz with action "grant". -/
def grant (args : List GoStr) : EditResult := editAuthz (gs "grant") args

/-- Model of the revoke command body: editAuthz with action "revoke". -/
def revoke (args : List GoStr) : EditResult := editAuthz (gs "revoke") args

/-- Outcome of core.TLSConfig(certFile, keyFile, "") as observed by
mustRPCClient: the cert/key files are absent (core.ErrNoTLS), present but
unreadable or malformed (some other error), or present and valid. -/
inductive TLSLoadResult where
  | errNoTLS
  | loadError (msg : GoStr)
  | ok
deriving DecidableEq

/-- Model of rpc.Client as far as mustRPCClient configures it: the bound
base URL, and whether a TLS-configured http transport is attached. -/
structure RpcClient where
  baseURL : GoStr
  hasTLSTransport : Bool
deriving DecidableEq

/-- Model of mustRPCClient from main.go, parameterized by the outcome of
the TLS material load and the configured core URL. On core.ErrNoTLS the
client is bound to the configured URL unchanged with no transport; on any
other load error the function runs fatalln (modelled as the error message,
exit status 2); on success, a URL with the literal leading segment "http:"
is rewritten to "https:" (url[5:] drops those five bytes), and the client
gets the TLS transport. -/
def mustRPCClient (tls : TLSLoadResult) (coreURL : GoStr) : Except GoStr RpcClient :=
  match tls with
  | .errNoTLS => .ok ⟨coreURL, false⟩
  | .loadError m => .error (gs "error: loading TLS cert: " ++ m)
  | .ok =>
    let url := if strHasPre (gs "http:") coreURL then gs "https:" ++ coreURL.drop 5 else coreURL
    .ok ⟨url, true⟩

/-- Scheme of a URL: everything up to and including the first colon,
lower-cased (URL schemes are case-insensitive). Used only to state the
spec's phrase "the bound URL uses the https scheme"; not part of the
source. -/
def specSchemeOf (u : GoStr) : GoStr := toLower (splitAfter2 u (gs ":")).1

/-- Spec-side predicate: the URL's scheme is https. -/
def specUsesHttps (u : GoStr) : Bool := specSchemeOf u == gs "https:"

/-- Names registered in the commands map of main.go, in source declaration
order (Go map iteration order is unspecified; none of the claims depend on
the order). -/
def commands : List GoStr :=
  [gs "create-block-keypair", gs "reset", gs "grant", gs "revoke", gs "wait",
   gs "create-account", gs "update-account-tags", gs "create-asset",
   gs "update-asset-tags", gs "build-transaction"]

/-- Lines written by help(w) in main.go (the command list is printed in an
unspecified map order; declaration order is used here, and no claim depends
on it). Fprintln(w, "\t", name) joins its operands with a space. -/
def help : List GoStr :=
  [gs "usage: corectl [-version] [command] [arguments]",
   gs "", gs "The commands are:", gs ""]
  ++ commands.map (fun n => gs "\t " ++ n)
  ++ [gs "", gs "Flags:", gs "\t-version   print version information", gs ""]

/-- Observable outcome of main's dispatch. -/
inductive MainResult where
  /-- the -version branch: version/build info to stdout, then return. -/
  | version
  /-- help text written to stdout, then os.Exit with the given status. -/
  | helpExit (stdout : List GoStr) (code : Nat)
  /-- lines written to stderr, then os.Exit with the given status. -/
  | unknownCommand (stderr : List GoStr) (code : Nat)
  /-- fatalln inside mustRPCClient (log flushed, msg printed, exit 2). -/
  | tlsFatal (msg : GoStr)
  /-- the named command's handler is invoked with the freshly bootstrapped
  client and the remaining arguments. -/
  | runCommand (name : GoStr) (client : RpcClient) (args : List GoStr)
deriving DecidableEq

/-- Model of main from main.go (named mainRun because Lean reserves main
for an entry point), over argv = os.Args[1:] and the transport
bootstrap inputs: the -version check comes first; with no arguments, help
goes to stdout and the process exits 0; an unregistered command name prints
the unknown-command line plus help to stderr and exits 1; otherwise the
registered handler is invoked with mustRPCClient() and the remaining
arguments. -/
def mainRun (tls : TLSLoadResult) (coreURL : GoStr) (argv : List GoStr) : MainResult :=
  match argv with
  | [] => MainResult.helpExit help 0
  | a :: rest =>
    if a = gs "-version" then MainResult.version
    else if a ∈ commands then
      match mustRPCClient tls coreURL with
      | .ok c => MainResult.runCommand a c rest
      | .error m => MainResult.tlsFatal m
    else MainResult.unknownCommand ((gs "unknown command: " ++ a) :: help) 1

/-- Result of one probe in the wait loop: client.Call("/info") returns nil,
an rpc.ErrStatusCode with the given status (after errors.Root), or any
other (transport-level) error. -/
inductive ProbeResult where
  | ok
  | statusErr (statusCode : Nat)
  | transportErr
deriving DecidableEq

/-- Exit condition of the wait loop body: break when the probe succeeded,
or when it failed with a classified status error whose StatusCode/100 is
not 5; otherwise sleep and re-probe. -/
def waitDone : ProbeResult → Bool
  | .ok => true
  | .statusErr c => decide (c / 100 ≠ 5)
  | .transportErr => false

/-- Fixed sleep between wait probes, in milliseconds (500 * time.Millisecond). -/
def waitDelayMs : Nat := 500

/-- Model of the wait loop over a trace of probe outcomes: returns the
number of probes performed and the total milliseconds slept when the loop
breaks within the trace, and none when every listed probe keeps it
polling (the loop itself has no retry bound). One sleep of waitDelayMs
separates consecutive probes. -/
def wait : List ProbeResult → Option (Nat × Nat)
  | [] => none
  | r :: rs =>
    if waitDone r then some (1, 0)
    else
      match wait rs with
      | none => none
      | some (p, ms) => some (p + 1, ms + waitDelayMs)

/-- Structured error payload carried by rpc.ErrStatusCode (ErrorData). -/
structure RPCErrorData where
  chainCode : GoStr
  message : GoStr
  detail : GoStr
deriving DecidableEq

/-- A non-nil error as dieOnRPCError sees it after errors.Root: either an
rpc.ErrStatusCode (whose ErrorData pointer may be nil), or any other
error; raw is the error's printed form. -/
inductive RPCError where
  | statusCode (status : Nat) (errorData : Option RPCErrorData) (raw : GoStr)
  | other (raw : GoStr)
deriving DecidableEq

/-- Observable effects of a fatal-exit helper: whether the log buffer was
drained to stderr, the lines written to stderr (buffer contents first),
and the exit status if the process exited. -/
structure FatalResult where
  flushedLog : Bool
  stderr : List GoStr
  exitCode : Option Nat
deriving DecidableEq

/-- Model of fatalln from main.go: drain the log buffer to stderr, print
the message line, exit with status 2. -/
def fatalln (logbuf : List GoStr) (msg : GoStr) : FatalResult :=
  ⟨true, logbuf ++ [msg], some 2⟩

/-- Model of dieOnRPCError from main.go. A nil error returns immediately:
no flush, no output, no exit. Otherwise the log buffer is drained to
stderr, the optional prefixes line is printed, then either the structured
chain code and message (plus a Detail line when detail is non-empty) when
the rooted error is an ErrStatusCode carrying ErrorData, or the raw error
otherwise; the process exits with status 2. Fprintln joins operands with
single spaces. -/
def dieOnRPCError (logbuf : List GoStr) (err : Option RPCError)
    (prefixes : List GoStr) : FatalResult :=
  match err with
  | none => ⟨false, [], none⟩
  | some e =>
    let pre : List GoStr :=
      if prefixes = [] then [] else [List.intercalate (gs " ") prefixes]
    let msg : List GoStr :=
      match e with
      | .statusCode _ (some d) _ =>
        (gs "RPC error: " ++ d.chainCode ++ gs " " ++ d.message) ::
          (if d.detail ≠ [] then [gs "Detail: " ++ d.detail] else [])
      | .statusCode _ none raw => [gs "RPC error: " ++ raw]
      | .other raw => [gs "RPC error: " ++ raw]
    ⟨true, logbuf ++ (pre ++ msg), some 2⟩

/-- The one-character separator [c] heads c :: b. -/
lemma strHasPre_cons_self (c : Char) (b : GoStr) : strHasPre [c] (c :: b) = true := by
  simp [strHasPre]

/-- A leading segment determines a decomposition of the string. -/
lemma strHasPre_iff (p s : GoStr) : strHasPre p s = true ↔ ∃ t, s = p ++ t := by
  induction p generalizing s with
  | nil => simp [strHasPre]
  | cons x xs ih =>
    cases s with
    | nil =>
      simp [strHasPre]
    | cons y ys =>
      simp only [strHasPre, Bool.and_eq_true, beq_iff_eq, ih, List.cons_append,
        List.cons.injEq]
      constructor
      · rintro ⟨hx, t, ht⟩
        exact ⟨t, hx.symm, ht⟩
      · rintro ⟨t, hx, ht⟩
        exact ⟨hx.symm, t, ht⟩

/-- First occurrence of the character c in a ++ c :: b when c does not
occur in a: it is at index a.length. -/
lemma strIndexAux_first (a b : GoStr) (c : Char) (h : c ∉ a) :
    strIndexAux [c] (a ++ c :: b) = some a.length := by
  induction a with
  | nil =>
    simp [strIndexAux, strHasPre_cons_self]
  | cons x t ih =>
    have hx : c ≠ x := fun hc => h (hc ▸ List.mem_cons_self x t)
    have ht : c ∉ t := fun hm => h (List.mem_cons_of_mem x hm)
    have hpre : strHasPre [c] (x :: (t ++ c :: b)) = false := by
      simp [strHasPre, hx]
    simp [strIndexAux, hpre, ih ht]

/-- When the character c does not occur in s at all, strIndexAux finds
nothing. -/
lemma strIndexAux_none (s : GoStr) (c : Char) (h : c ∉ s) :
    strIndexAux [c] s = none := by
  induction s with
  | nil => simp [strIndexAux]
  | cons x t ih =>
    have hx : c ≠ x := fun hc => h (hc ▸ List.mem_cons_self x t)
    have ht : c ∉ t := fun hm => h (List.mem_cons_of_mem x hm)
    have hpre : strHasPre [c] (x :: t) = false := by
      simp [strHasPre, hx]
    simp [strIndexAux, hpre, ih ht]

/-- Taking one past a leading segment of length a.length keeps a and the
next element. -/
lemma take_append_cons (a b : GoStr) (c : Char) :
    (a ++ c :: b).take (a.length + 1) = a ++ [c] := by
  induction a with
  | nil => rfl
  | cons x t ih => simp [List.take_succ_cons, ih]

/-- Dropping one past a leading segment of length a.length leaves the
tail. -/
lemma drop_append_cons (a b : GoStr) (c : Char) :
    (a ++ c :: b).drop (a.length + 1) = b := by
  induction a with
  | nil => rfl
  | cons x t ih => simp [List.drop_succ_cons, ih]

/-- splitAfter2 at the first occurrence of c: the left part is everything
up to and including that first c, the right part is the remainder. -/
lemma splitAfter2_first (a b : GoStr) (c : Char) (h : c ∉ a) :
    splitAfter2 (a ++ c :: b) [c] = (a ++ [c], b) := by
  have hidx : strIndex (a ++ c :: b) [c] = (a.length : Int) := by
    simp [strIndex, strIndexAux_first a b c h]
  have hk : (strIndex (a ++ c :: b) [c] + (([c] : GoStr).length : Int)).toNat
      = a.length + 1 := by
    rw [hidx]; simp
  simp only [splitAfter2, hk, take_append_cons, drop_append_cons]

/-- splitAfter2 when the separator character does not occur: empty left
part, entire string as right part (the behavior stated in the source
comment). -/
lemma splitAfter2_not_mem (s : GoStr) (c : Char) (h : c ∉ s) :
    splitAfter2 s [c] = ([], s) := by
  have hidx : strIndex s [c] = -1 := by
    simp [strIndex, strIndexAux_none s c h]
  simp [splitAfter2, hidx]

/-- Characters that upper-case to themselves and are missing from the
upper-cased string are missing from the original. -/
lemma not_mem_of_toUpper (p u : GoStr) (c : Char) (hc : Char.toUpper c = c)
    (h : toUpper p = u) (hu : c ∉ u) : c ∉ p := by
  intro hm
  exact hu (h ▸ hc ▸ List.mem_map_of_mem Char.toUpper hm)

/-- toUpper distributes over append. -/
lemma toUpper_append (a b : GoStr) : toUpper (a ++ b) = toUpper a ++ toUpper b := by
  simp [toUpper]

/-- flags.Parse leaves a two-element argument list alone when the first
element is not flag-shaped. -/
lemma flagParse_pair (policy guard : GoStr) (h : isFlagArg policy = false) :
    flagParse [policy, guard] = some [policy, guard] := by
  have hne : policy ≠ gs "--" := by
    intro he
    rw [he] at h
    exact absurd h (by decide)
  simp [flagParse, hne, h]

/-- The separator string "=" is the one-character list. -/
lemma gs_eq_sep : gs "=" = ['='] := rfl

/-- Every string containing a character decomposes at its first
occurrence. -/
lemma exists_first_occurrence (s : GoStr) (c : Char) (h : c ∈ s) :
    ∃ a b, s = a ++ c :: b ∧ c ∉ a := by
  induction s with
  | nil => cases h
  | cons x t ih =>
    by_cases hx : c = x
    · subst hx
      exact ⟨[], t, rfl, by simp⟩
    · have ht : c ∈ t := by
        rcases List.mem_cons.mp h with h1 | h2
        · exact absurd h1 hx
        · exact h2
      obtain ⟨a, b, hab, hna⟩ := ih ht
      refine ⟨x :: a, b, by simp [hab], ?_⟩
      intro hm
      rcases List.mem_cons.mp hm with h1 | h2
      · exact hx h1
      · exact hna h2

/-- C10: For every string containing "=", splitAfter2 splits at the first
occurrence of "=": the left part is the string up to and including that
first "=", the right part is the remainder, and their concatenation
restores the string; in particular CN=a=b yields value a=b, so a guard
value may itself contain "=" and is passed through unmodified. -/
theorem c10_split_first_eq :
    (∀ s : GoStr, '=' ∈ s →
      ∃ a b, s = a ++ '=' :: b ∧ '=' ∉ a ∧
        splitAfter2 s (gs "=") = (a ++ ['='], b) ∧
        (a ++ ['=']) ++ b = s)
    ∧ splitAfter2 (gs "CN=a=b") (gs "=") = (gs "CN=", gs "a=b") := by
  constructor
  · intro s h
    obtain ⟨a, b, hab, hna⟩ := exists_first_occurrence s '=' h
    subst hab
    refine ⟨a, b, rfl, hna, ?_, by simp⟩
    rw [gs_eq_sep]
    exact splitAfter2_first a b '=' hna
  · decide

/-- C10 witness: the general part applied to the concrete string a=b. -/
theorem c10_split_first_eq_witness :
    ∃ a b, gs "a=b" = a ++ '=' :: b ∧ '=' ∉ a ∧
      splitAfter2 (gs "a=b") (gs "=") = (a ++ ['='], b) ∧
      (a ++ ['=']) ++ b = gs "a=b" :=
  c10_split_first_eq.1 (gs "a=b") (by decide)

/-- C5 counterexample: on a guard token with no "=", splitAfter2 returns
the empty string as the prefix and the whole token as the value — not, as
the claim states, the whole token as the prefix with an empty value. -/
theorem c5_split_counterexample :
    splitAfter2 (gs "abc") (gs "=") = (gs "", gs "abc")
    ∧ splitAfter2 (gs "abc") (gs "=") ≠ (gs "abc", gs "") := by decide

/-- C5 amended: for every guard token containing no "=", the split treats
the empty string as the type-prefix and the whole token as the value; this
is not an error by itself — the empty prefix matches no known guard type,
so the caller falls into the unknown-guard-type path (printing an empty
guard type before the usage text). -/
theorem c5_split_no_sep_amended : ∀ s : GoStr, '=' ∉ s →
    splitAfter2 s (gs "=") = ([], s)
    ∧ (∀ action policy : GoStr, isFlagArg policy = false →
        editAuthz action [policy, s] =
          EditResult.fatal [gs "unknown guard type "] (usageOf action)) := by
  intro s hs
  have h1 : splitAfter2 s (gs "=") = ([], s) := by
    rw [gs_eq_sep]
    exact splitAfter2_not_mem s '=' hs
  refine ⟨h1, ?_⟩
  intro action policy hp
  simp only [editAuthz, flagParse_pair policy s hp, h1]
  split_ifs with h2 h3 h4
  · exact absurd h2 (by decide)
  · exact absurd h3 (by decide)
  · exact absurd h4 (by decide)
  · rfl

/-- C5 witness: the amended statement at the concrete token abc (no "="),
with action grant and policy p. -/
theorem c5_split_no_sep_witness :
    splitAfter2 (gs "abc") (gs "=") = ([], gs "abc")
    ∧ editAuthz (gs "grant") [gs "p", gs "abc"] =
        EditResult.fatal [gs "unknown guard type "] (usageOf (gs "grant")) :=
  ⟨(c5_split_no_sep_amended (gs "abc") (by decide)).1,
   (c5_split_no_sep_amended (gs "abc") (by decide)).2 (gs "grant") (gs "p") (by decide)⟩

/-- C1: for every guard token prefix=value whose prefix upper-cases to
TOKEN, CN or OU, editAuthz builds the corresponding request: TOKEN yields
guard_type access_token with guard_data an id object, CN and OU yield
guard_type x509 with guard_data a subject object keyed CN resp. OU, and
the value string is preserved exactly (including the empty string). -/
theorem c1_guard_codec : ∀ action policy p v : GoStr, isFlagArg policy = false →
    (toUpper p = gs "TOKEN" →
      editAuthz action [policy, p ++ '=' :: v] =
        EditResult.request (pathOf action)
          ⟨policy, gs "access_token", JVal.jobj1 (gs "id") (JVal.jstr v)⟩)
    ∧ (toUpper p = gs "CN" →
      editAuthz action [policy, p ++ '=' :: v] =
        EditResult.request (pathOf action)
          ⟨policy, gs "x509", JVal.jobj1 (gs "subject") (JVal.jobj1 (gs "CN") (JVal.jstr v))⟩)
    ∧ (toUpper p = gs "OU" →
      editAuthz action [policy, p ++ '=' :: v] =
        EditResult.request (pathOf action)
          ⟨policy, gs "x509", JVal.jobj1 (gs "subject") (JVal.jobj1 (gs "OU") (JVal.jstr v))⟩) := by
  intro action policy p v hp
  refine ⟨?_, ?_, ?_⟩ <;> intro hu
  all_goals
    have hne : '=' ∉ p := not_mem_of_toUpper p _ '=' (by decide) hu (by decide)
    have hs : splitAfter2 (p ++ '=' :: v) (gs "=") = (p ++ ['='], v) := by
      rw [gs_eq_sep]
      exact splitAfter2_first p v '=' hne
    have hup : toUpper (p ++ ['=']) = toUpper p ++ ['='] := by
      rw [toUpper_append]
      rfl
    simp only [editAuthz, flagParse_pair policy _ hp, hs, hup, hu]
  · rw [if_pos (by decide)]
  · rw [if_neg (by decide), if_pos (by decide)]
  · rw [if_neg (by decide), if_neg (by decide), if_pos (by decide)]

/-- C1 witness: the three branches at concrete mixed-case tokens, with an
empty value for the TOKEN branch. -/
theorem c1_guard_codec_witness :
    editAuthz (gs "grant") [gs "p", gs "ToKeN" ++ '=' :: ([] : GoStr)] =
      EditResult.request (pathOf (gs "grant"))
        ⟨gs "p", gs "access_token", JVal.jobj1 (gs "id") (JVal.jstr [])⟩
    ∧ editAuthz (gs "revoke") [gs "q", gs "cn" ++ '=' :: gs "Org Admins"] =
      EditResult.request (pathOf (gs "revoke"))
        ⟨gs "q", gs "x509", JVal.jobj1 (gs "subject") (JVal.jobj1 (gs "CN") (JVal.jstr (gs "Org Admins")))⟩
    ∧ editAuthz (gs "grant") [gs "r", gs "Ou" ++ '=' :: gs "Ops"] =
      EditResult.request (pathOf (gs "grant"))
        ⟨gs "r", gs "x509", JVal.jobj1 (gs "subject") (JVal.jobj1 (gs "OU") (JVal.jstr (gs "Ops")))⟩ :=
  ⟨(c1_guard_codec (gs "grant") (gs "p") (gs "ToKeN") [] (by decide)).1 (by decide),
   (c1_guard_codec (gs "revoke") (gs "q") (gs "cn") (gs "Org Admins") (by decide)).2.1 (by decide),
   (c1_guard_codec (gs "grant") (gs "r") (gs "Ou") (gs "Ops") (by decide)).2.2 (by decide)⟩

/-- C6: a guard token whose upper-cased prefix is none of TOKEN=, CN=, OU=
makes editAuthz print the unrecognized type followed by the usage text and
exit with status 2, the printed output containing the literal unrecognized
prefix. -/
theorem c6_unknown_guard : ∀ action policy g : GoStr, isFlagArg policy = false →
    toUpper (splitAfter2 g (gs "=")).1 ≠ gs "TOKEN=" →
    toUpper (splitAfter2 g (gs "=")).1 ≠ gs "CN=" →
    toUpper (splitAfter2 g (gs "=")).1 ≠ gs "OU=" →
    editAuthz action [policy, g] =
      EditResult.fatal [gs "unknown guard type " ++ (splitAfter2 g (gs "=")).1]
        (usageOf action)
    ∧ (editAuthz action [policy, g]).exitCode = some 2
    ∧ ∃ x y, x ++ (splitAfter2 g (gs "=")).1 ++ y =
        gs "unknown guard type " ++ (splitAfter2 g (gs "=")).1 := by
  intro action policy g hp h1 h2 h3
  have heq : editAuthz action [policy, g] =
      EditResult.fatal [gs "unknown guard type " ++ (splitAfter2 g (gs "=")).1]
        (usageOf action) := by
    simp only [editAuthz, flagParse_pair policy g hp]
    rw [if_neg h1, if_neg h2, if_neg h3]
  refine ⟨heq, by rw [heq]; rfl, gs "unknown guard type ", [], by simp⟩

/-- C6 witness: the concrete unrecognized token foo=bar under action
grant. -/
theorem c6_unknown_guard_witness :
    editAuthz (gs "grant") [gs "p", gs "foo=bar"] =
      EditResult.fatal [gs "unknown guard type " ++ (splitAfter2 (gs "foo=bar") (gs "=")).1]
        (usageOf (gs "grant"))
    ∧ (editAuthz (gs "grant") [gs "p", gs "foo=bar"]).exitCode = some 2
    ∧ ∃ x y, x ++ (splitAfter2 (gs "foo=bar") (gs "=")).1 ++ y =
        gs "unknown guard type " ++ (splitAfter2 (gs "foo=bar") (gs "=")).1 :=
  c6_unknown_guard (gs "grant") (gs "p") (gs "foo=bar")
    (by decide) (by decide) (by decide) (by decide)

/-- C9: every request editAuthz issues keeps guard_type and guard_data
consistent: access_token goes with an id object, x509 with a subject
object keyed CN or OU; no mismatched pair is ever constructed. -/
theorem c9_guard_consistency : ∀ (action : GoStr) (args : List GoStr)
    (path : GoStr) (body : GrantReq),
    editAuthz action args = EditResult.request path body →
    (body.guardType = gs "access_token"
      ∧ ∃ id, body.guardData = JVal.jobj1 (gs "id") (JVal.jstr id))
    ∨ (body.guardType = gs "x509"
      ∧ ∃ f v, (f = gs "CN" ∨ f = gs "OU")
        ∧ body.guardData = JVal.jobj1 (gs "subject") (JVal.jobj1 f (JVal.jstr v))) := by
  intro action args path body h
  cases hfp : flagParse args with
  | none => simp [editAuthz, hfp] at h
  | some rest =>
    simp only [editAuthz, hfp] at h
    match rest with
    | [] => simp at h
    | [a] => simp at h
    | a :: b :: c :: t => simp at h
    | [a, b] =>
      simp only at h
      split_ifs at h with h1 h2 h3
      · simp only [EditResult.request.injEq] at h
        rw [← h.2]
        exact Or.inl ⟨rfl, (splitAfter2 b (gs "=")).2, rfl⟩
      · simp only [EditResult.request.injEq] at h
        rw [← h.2]
        exact Or.inr ⟨rfl, gs "CN", (splitAfter2 b (gs "=")).2, Or.inl rfl, rfl⟩
      · simp only [EditResult.request.injEq] at h
        rw [← h.2]
        exact Or.inr ⟨rfl, gs "OU", (splitAfter2 b (gs "=")).2, Or.inr rfl, rfl⟩

/-- C9 witness: the consistency invariant instantiated by a concrete
grant request. -/
theorem c9_guard_consistency_witness :
    ((⟨gs "p", gs "access_token", JVal.jobj1 (gs "id") (JVal.jstr (gs "x"))⟩ : GrantReq).guardType = gs "access_token"
      ∧ ∃ id, (⟨gs "p", gs "access_token", JVal.jobj1 (gs "id") (JVal.jstr (gs "x"))⟩ : GrantReq).guardData
          = JVal.jobj1 (gs "id") (JVal.jstr id))
    ∨ ((⟨gs "p", gs "access_token", JVal.jobj1 (gs "id") (JVal.jstr (gs "x"))⟩ : GrantReq).guardType = gs "x509"
      ∧ ∃ f v, (f = gs "CN" ∨ f = gs "OU")
        ∧ (⟨gs "p", gs "access_token", JVal.jobj1 (gs "id") (JVal.jstr (gs "x"))⟩ : GrantReq).guardData
          = JVal.jobj1 (gs "subject") (JVal.jobj1 f (JVal.jstr v))) :=
  c9_guard_consistency (gs "grant") [gs "p", gs "token=x"]
    (gs "/create-authorization-grant")
    ⟨gs "p", gs "access_token", JVal.jobj1 (gs "id") (JVal.jstr (gs "x"))⟩
    (by decide)

/-- C2 counterexample: with valid TLS material present, a configured URL
whose plaintext scheme is typed in upper case (HTTP:) is bound unchanged,
so the client's bound URL does not use the https scheme even though the
operator typed an http URL — the claim's "regardless of the scheme the
operator typed" fails. -/
theorem c2_transport_counterexample :
    mustRPCClient .ok (gs "HTTP://localhost:1999") =
      .ok ⟨gs "HTTP://localhost:1999", true⟩
    ∧ specUsesHttps (gs "HTTP://localhost:1999") = false :=
  ⟨rfl, by decide⟩

/-- C2 amended: absent cert/key files leave the configured URL unchanged
(plaintext kept, no error); with a valid cert/key pair, a URL with the
literal lower-case leading segment http: is rewritten to https:, and every
URL not starting with that literal segment — https: URLs, but also other
spellings such as HTTP: and other schemes — is bound unchanged. In
particular URLs typed with a lower-case http or https scheme end up bound
with the https scheme, while a URL the literal check misses keeps its
scheme. -/
theorem c2_transport_bootstrap_amended : ∀ url : GoStr,
    mustRPCClient .errNoTLS url = .ok ⟨url, false⟩
    ∧ (∀ t, url = gs "http:" ++ t →
        mustRPCClient .ok url = .ok ⟨gs "https:" ++ t, true⟩
        ∧ specUsesHttps (gs "https:" ++ t) = true)
    ∧ (strHasPre (gs "http:") url = false →
        mustRPCClient .ok url = .ok ⟨url, true⟩)
    ∧ (∀ t, url = gs "https:" ++ t → specUsesHttps url = true) := by
  intro url
  refine ⟨rfl, ?_, ?_, ?_⟩
  · rintro t rfl
    exact ⟨rfl, rfl⟩
  · intro h
    simp [mustRPCClient, h]
  · rintro t rfl
    rfl

/-- C2 witness: the amended statement at concrete URLs — a lower-case
http URL (rewritten, scheme https), a lower-case https URL (unchanged,
scheme https), an upper-case HTTP URL and an ftp URL (both missed by the
literal check and bound unchanged), and a no-TLS case. -/
theorem c2_transport_bootstrap_witness :
    mustRPCClient .errNoTLS (gs "http://localhost:1999") =
      .ok ⟨gs "http://localhost:1999", false⟩
    ∧ (mustRPCClient .ok (gs "http://localhost:1999") =
        .ok ⟨gs "https:" ++ gs "//localhost:1999", true⟩
      ∧ specUsesHttps (gs "https:" ++ gs "//localhost:1999") = true)
    ∧ mustRPCClient .ok (gs "https://localhost:1999") =
        .ok ⟨gs "https://localhost:1999", true⟩
    ∧ mustRPCClient .ok (gs "Http://localhost:1999") =
        .ok ⟨gs "Http://localhost:1999", true⟩
    ∧ mustRPCClient .ok (gs "ftp://localhost:1999") =
        .ok ⟨gs "ftp://localhost:1999", true⟩
    ∧ specUsesHttps (gs "https://localhost:1999") = true :=
  ⟨(c2_transport_bootstrap_amended (gs "http://localhost:1999")).1,
   (c2_transport_bootstrap_amended (gs "http://localhost:1999")).2.1
     (gs "//localhost:1999") rfl,
   (c2_transport_bootstrap_amended (gs "https://localhost:1999")).2.2.1
     (by decide),
   (c2_transport_bootstrap_amended (gs "Http://localhost:1999")).2.2.1
     (by decide),
   (c2_transport_bootstrap_amended (gs "ftp://localhost:1999")).2.2.1
     (by decide),
   (c2_transport_bootstrap_amended (gs "https://localhost:1999")).2.2.2
     (gs "//localhost:1999") rfl⟩

/-- The wait loop stops at the first probe whose outcome satisfies the
break condition, having performed that many probes and slept between
consecutive ones. -/
lemma wait_first_done : ∀ (rs : List ProbeResult) (n : Nat) (hn : n < rs.length),
    (∀ k (hk : k < n), waitDone (rs.get ⟨k, Nat.lt_trans hk hn⟩) = false) →
    waitDone (rs.get ⟨n, hn⟩) = true →
    wait rs = some (n + 1, n * waitDelayMs) := by
  intro rs
  induction rs with
  | nil =>
    intro n hn
    exact absurd hn (by simp)
  | cons r t ih =>
    intro n hn hf hd
    cases n with
    | zero =>
      simp only [List.get] at hd
      simp [wait, hd]
    | succ m =>
      have h0 : waitDone r = false := hf 0 (Nat.succ_pos m)
      have hm : m < t.length := Nat.lt_of_succ_lt_succ hn
      have ht : wait t = some (m + 1, m * waitDelayMs) :=
        ih m hm (fun k hk => hf (k + 1) (Nat.succ_lt_succ hk)) hd
      simp [wait, h0, ht, Nat.succ_mul]

/-- A trace on which every probe keeps the loop polling never finishes:
the loop has no retry bound of its own. -/
lemma wait_all_fail : ∀ rs : List ProbeResult,
    (∀ r ∈ rs, waitDone r = false) → wait rs = none := by
  intro rs h
  induction rs with
  | nil => rfl
  | cons r t ih =>
    have h0 : waitDone r = false := h r (List.mem_cons_self r t)
    have ht : wait t = none := ih (fun x hx => h x (List.mem_cons_of_mem r hx))
    simp [wait, h0, ht]

/-- N probes answering a 503-class status followed by a success give
exactly N+1 probes with N sleeps of the fixed delay. -/
lemma wait_replicate_503 : ∀ N : Nat,
    wait (List.replicate N (ProbeResult.statusErr 503) ++ [ProbeResult.ok]) =
      some (N + 1, N * waitDelayMs) := by
  intro N
  induction N with
  | zero => rfl
  | succ m ih =>
    rw [List.replicate_succ, List.cons_append]
    have h0 : waitDone (ProbeResult.statusErr 503) = false := by decide
    simp [wait, h0, ih, Nat.succ_mul]

/-- C3: the wait loop terminates exactly at the first probe that succeeds
or fails with a status error whose class is not 5xx (StatusCode/100 is
not 5), having performed that many probes and slept the fixed 500 ms
delay between consecutive probes; a trace of probes that all keep it
polling never finishes (no retry bound); and in particular N probes with
a 503-class status followed by a success give exactly N+1 probes with N
sleeps. -/
theorem c3_wait_poller :
    (∀ (rs : List ProbeResult) (n : Nat) (hn : n < rs.length),
      (∀ k (hk : k < n), waitDone (rs.get ⟨k, Nat.lt_trans hk hn⟩) = false) →
      waitDone (rs.get ⟨n, hn⟩) = true →
      wait rs = some (n + 1, n * waitDelayMs))
    ∧ (∀ rs : List ProbeResult,
        (∀ r ∈ rs, waitDone r = false) → wait rs = none)
    ∧ (∀ N : Nat,
        wait (List.replicate N (ProbeResult.statusErr 503) ++ [ProbeResult.ok]) =
          some (N + 1, N * waitDelayMs))
    ∧ waitDelayMs = 500 :=
  ⟨wait_first_done, wait_all_fail, wait_replicate_503, rfl⟩

/-- C3 witness: a trace with one 503-class failure then a success stops
after exactly two probes with one 500 ms sleep, via the first conjunct;
and the 503-then-success family at N = 2 via the third. -/
theorem c3_wait_poller_witness :
    wait [ProbeResult.statusErr 503, ProbeResult.ok] = some (2, 500)
    ∧ wait (List.replicate 2 (ProbeResult.statusErr 503) ++ [ProbeResult.ok]) =
        some (3, 1000) :=
  have hn : 1 < ([ProbeResult.statusErr 503, ProbeResult.ok] : List ProbeResult).length := by
    decide
  ⟨c3_wait_poller.1 [ProbeResult.statusErr 503, ProbeResult.ok] 1 hn
      (fun k hk => by
        have hk0 : k = 0 := by omega
        subst hk0
        exact (by decide : waitDone (ProbeResult.statusErr 503) = false))
      (by exact (by decide : waitDone ProbeResult.ok = true)),
   c3_wait_poller.2.2.1 2⟩

/-- C4: dieOnRPCError with a nil error returns with no side effects (no
flush, nothing written, no exit); with a non-nil error it flushes the
buffered log to stderr, then prints the structured chain code and message
plus a Detail line when the detail is non-empty if the error is a status
error carrying error data, and the raw error otherwise, exiting with
status 2 in every error case. -/
theorem c4_die_on_rpc_error : ∀ lb : List GoStr,
    dieOnRPCError lb none [] = ⟨false, [], none⟩
    ∧ (∀ (code : Nat) (d : RPCErrorData) (raw : GoStr),
        dieOnRPCError lb (some (RPCError.statusCode code (some d) raw)) [] =
          ⟨true,
           lb ++ ((gs "RPC error: " ++ d.chainCode ++ gs " " ++ d.message) ::
             (if d.detail ≠ [] then [gs "Detail: " ++ d.detail] else [])),
           some 2⟩)
    ∧ (∀ (code : Nat) (raw : GoStr),
        dieOnRPCError lb (some (RPCError.statusCode code none raw)) [] =
          ⟨true, lb ++ [gs "RPC error: " ++ raw], some 2⟩)
    ∧ (∀ raw : GoStr,
        dieOnRPCError lb (some (RPCError.other raw)) [] =
          ⟨true, lb ++ [gs "RPC error: " ++ raw], some 2⟩) := by
  intro lb
  exact ⟨rfl, fun code d raw => rfl, fun code raw => rfl, fun raw => rfl⟩

/-- C7: the dispatcher with no positional arguments prints help to stdout
and exits 0; with an unregistered first argument (other than the -version
flag) it prints the unknown-command line and the help text to stderr and
exits 1; with a registered command name it runs that command's handler
with the freshly bootstrapped client and the remaining arguments. -/
theorem c7_dispatch : ∀ (tls : TLSLoadResult) (url : GoStr),
    mainRun tls url [] = MainResult.helpExit help 0
    ∧ (∀ (a : GoStr) (rest : List GoStr), a ≠ gs "-version" → a ∉ commands →
        mainRun tls url (a :: rest) =
          MainResult.unknownCommand ((gs "unknown command: " ++ a) :: help) 1)
    ∧ (∀ (a : GoStr) (rest : List GoStr) (c : RpcClient), a ∈ commands →
        mustRPCClient tls url = .ok c →
        mainRun tls url (a :: rest) = MainResult.runCommand a c rest) := by
  intro tls url
  refine ⟨rfl, ?_, ?_⟩
  · intro a rest hv hc
    simp only [mainRun]
    rw [if_neg hv, if_neg hc]
  · intro a rest c hc hok
    have hv : a ≠ gs "-version" := by
      intro he
      rw [he] at hc
      exact absurd hc (by decide)
    simp only [mainRun]
    rw [if_neg hv, if_pos hc, hok]

/-- C7 witness: the unknown command frobnicate exits 1 with the
unknown-command line, and the registered command wait is dispatched with
the bootstrapped client and its remaining arguments. -/
theorem c7_dispatch_witness :
    mainRun .errNoTLS (gs "http://localhost:1999") [gs "frobnicate"] =
      MainResult.unknownCommand ((gs "unknown command: " ++ gs "frobnicate") :: help) 1
    ∧ mainRun .errNoTLS (gs "http://localhost:1999") [gs "wait"] =
      MainResult.runCommand (gs "wait") ⟨gs "http://localhost:1999", false⟩ [] :=
  ⟨(c7_dispatch .errNoTLS (gs "http://localhost:1999")).2.1
      (gs "frobnicate") [] (by decide) (by decide),
   (c7_dispatch .errNoTLS (gs "http://localhost:1999")).2.2
      (gs "wait") [] ⟨gs "http://localhost:1999", false⟩ (by decide) rfl⟩

/-- C8: grant policy-a CN=Org Admins posts the x509 subject body to
/create-authorization-grant, and revoke policy-a token=abc123 posts the
access-token body to /delete-authorization-grant, with exactly the JSON
serializations stated in the spec. -/
theorem c8_wire_payloads :
    (grant [gs "policy-a", gs "CN=Org Admins"] =
      EditResult.request (gs "/create-authorization-grant")
        ⟨gs "policy-a", gs "x509",
         JVal.jobj1 (gs "subject") (JVal.jobj1 (gs "CN") (JVal.jstr (gs "Org Admins")))⟩
    ∧ GrantReq.render
        ⟨gs "policy-a", gs "x509",
         JVal.jobj1 (gs "subject") (JVal.jobj1 (gs "CN") (JVal.jstr (gs "Org Admins")))⟩ =
      gs "\x7b\"policy\":\"policy-a\",\"guard_type\":\"x509\",\"guard_data\":\x7b\"subject\":\x7b\"CN\":\"Org Admins\"\x7d\x7d\x7d")
    ∧ (revoke [gs "policy-a", gs "token=abc123"] =
      EditResult.request (gs "/delete-authorization-grant")
        ⟨gs "policy-a", gs "access_token", JVal.jobj1 (gs "id") (JVal.jstr (gs "abc123"))⟩
    ∧ GrantReq.render
        ⟨gs "policy-a", gs "access_token", JVal.jobj1 (gs "id") (JVal.jstr (gs "abc123"))⟩ =
      gs "\x7b\"policy\":\"policy-a\",\"guard_type\":\"access_token\",\"guard_data\":\x7b\"id\":\"abc123\"\x7d\x7d") := by
  refine ⟨⟨?_, ?_⟩, ?_, ?_⟩ <;> decide
